import Mathlib

/-
  Verification of the midstore write-behind buffer (package midstore).

  Shallow embedding of src/cache.go.  Pure data is translated directly;
  the effectful parts are modelled by explicit state passing and by event
  traces:

  * A sink call (IHandle.FlushCall / IHandle.FailedCall) either returns a
    Go `error` (modelled as `Option Err`) or raises a run-time fault
    (Go panic), modelled by `SinkRes.panicked`.
  * Every externally observable action of the engine (sink invocation,
    backup-writer handle request, buffered file writes, log calls, closing
    the writer, closing the signal channel) is recorded as an `Ev` in a
    trace, in program order.
  * `os.File` is modelled by its only relevant bit of state (whether the
    descriptor has been closed); `(*os.File).Close` on an already closed
    file returns a non-nil error ("use of closed file"), as in Go's os
    package.
  * The flush-signal channel (`chan struct{}` of capacity 10) is modelled
    by a counter of pending signals plus a closed flag; a send on a closed
    channel is a run-time fault (`SendRes.panicked`), a send on a full open
    channel blocks (`SendRes.blocked`), otherwise it enqueues.
  * `context` cancellation is a boolean; `sync.WaitGroup` interaction in
    `Stop`/`run` is modelled by the `wgDone` flag of the run loop's result:
    `Stop` returns (and closes writer and channel) only if `wgDone` is set.
  * Fields of the Go structs that carry no data relevant to the verified
    behaviour (the mutexes, the ticker, the context/cancel pair, the
    pluggable log object) are not part of the state; the mutex-protected
    critical sections appear as single transitions, and log calls appear
    as trace events.
-/

namespace Midstore

/-- Go `error` values are opaque here; only nil-ness and identity matter. -/
abbrev Err := String

/-- Result of calling a user-supplied sink: a normal return carrying the
Go error value (`none` = nil), or a run-time fault (panic). -/
inductive SinkRes where
  | ret (e : Option Err)
  | panicked (msg : String)
deriving DecidableEq

/-- True when the sink call returned normally (did not panic). -/
def SinkRes.isRet : SinkRes → Bool
  | .ret _ => true
  | .panicked _ => false

/-- IHandle[T]: the caller-supplied sink pair (src/cache.go lines 28-31). -/
structure Handle (T : Type) where
  flushCall : List T → SinkRes
  failedCall : List T → SinkRes

/-- One leveled log call made by the engine, identified by its call site
and the dynamic values interpolated there (src/cache.go / src/log.go). -/
inductive LogEvent (T : Type) where
  | debugStart
  | flushCallSuccess (total : Nat)
  | flushCallError (total : Nat) (e : Err)
  | failedCallSuccess (total : Nat)
  | failedCallError (total : Nat) (e : Err)
  | getWriterError (rows : List T) (e : Err)
  | marshalError (row : T) (e : Err)
  | panicRecovered (msg : String)
deriving DecidableEq

/-- Externally observable actions of the engine, in program order. -/
inductive Ev (T : Type) where
  | flushCall (rows : List T)
  | failedCall (rows : List T)
  | getWriter
  | write (bytes : List Nat)
  | writeNewline
  | log (e : LogEvent T)
  | writerClose
  | chanClose
deriving DecidableEq

/-- Options (src/cache.go lines 62-70).  `time.Duration` is int64
nanoseconds, `os.FileMode` is uint32; the pluggable log object carries no
state relevant here and is omitted. -/
structure Options where
  flushInterval : Int
  maxLength : Int
  failedFileDir : String
  failedFileDirMode : Nat
  failedFileName : String
  enableLocalBackup : Bool
deriving DecidableEq

def defaultMaxLength : Int := 1000

/-- time.Minute in nanoseconds. -/
def defaultFlushInterval : Int := 60000000000

def defaultFailedFileDir : String := "."

def defaultFailedFileDirMode : Nat := 0o755

def defaultFailedFileName : String := "failed"

/-- The option defaults installed by NewCache (src/cache.go lines 87-95). -/
def defaultOptions : Options :=
  { flushInterval := defaultFlushInterval
  , maxLength := defaultMaxLength
  , failedFileDir := defaultFailedFileDir
  , failedFileDirMode := defaultFailedFileDirMode
  , failedFileName := defaultFailedFileName
  , enableLocalBackup := true }

/-- WithFailedFileDirAndMode (src/cache.go lines 149-165), translated
statement by statement, including the unconditional `o.failedFileDir = dir`
before the guarded reassignment, and the branch that assigns
`defaultFailedFileName` (not `filename`) when `filename` is non-empty. -/
def WithFailedFileDirAndMode (dir : String) (filename : String) (mode : Nat)
    (o : Options) : Options :=
  let o1 := { o with enableLocalBackup := dir != "", failedFileDir := dir }
  let o2 := if dir != "" then { o1 with failedFileDir := dir } else o1
  let o3 := if mode != 0 then { o2 with failedFileDirMode := mode } else o2
  if filename != "" then { o3 with failedFileName := defaultFailedFileName } else o3

/-- filepath.Join for the simple two-component case used by GetWriter
(no `..`/`.` cleaning arises for the names involved here). -/
def filepathJoin (a b : String) : String :=
  if a = "" then b else a ++ "/" ++ b

/-- The backup file name computed by defaultWriter.GetWriter
(src/cache.go line 328): `filepath.Join(dir, fmt.Sprintf("%s.%s.log",
failedFileName, today))` where `today` is `time.Now().Format("20060102")`,
passed in here as an argument. -/
def getWriterFileName (o : Options) (today : String) : String :=
  filepathJoin o.failedFileDir (o.failedFileName ++ "." ++ today ++ ".log")

/-- The state of an `*os.File` that matters here: whether its descriptor
has already been closed. -/
structure FileHandle where
  closed : Bool
deriving DecidableEq

/-- `(*os.File).Close`: the first close succeeds; closing an already
closed file returns a non-nil error (os.ErrClosed). -/
def fileClose (f : FileHandle) : Option Err × FileHandle :=
  if f.closed then (some "use of closed file", f)
  else (none, { closed := true })

/-- defaultWriter's mutable state (src/cache.go lines 321-325); the
back-pointer to Options is not needed for Close. -/
structure WriterSt where
  curFile : Option FileHandle
  fileName : String
deriving DecidableEq

/-- defaultWriter.Close (src/cache.go lines 352-357): delegates to the
file's Close when a handle is present and never clears `curFile`. -/
def defaultWriterClose (w : WriterSt) : Option Err × WriterSt :=
  match w.curFile with
  | none => (none, w)
  | some f =>
    let r := fileClose f
    (r.1, { w with curFile := some r.2 })

/-- The flush-signal channel `chan struct{}` (capacity 10): a count of
buffered signals and a closed flag. -/
structure Chan where
  pending : Nat
  cap : Nat
  closed : Bool
deriving DecidableEq

/-- Outcome of a channel send. -/
inductive SendRes where
  | sent
  | blocked
  | panicked
deriving DecidableEq

/-- Send on the signal channel: sending on a closed channel is a run-time
fault; a full open channel blocks the sender; otherwise enqueue. -/
def chanSend (ch : Chan) : Chan × SendRes :=
  if ch.closed then (ch, .panicked)
  else if ch.pending < ch.cap then ({ ch with pending := ch.pending + 1 }, .sent)
  else (ch, .blocked)

/-- Cache state (src/cache.go lines 47-60).  `data` and the channel are
the mutable state; `cancelled` models `ctx.Done()`; the handle, writer and
marshaller are passed to the operations as parameters. -/
structure CacheSt (T : Type) where
  data : List T
  flushChannel : Chan
  cancelled : Bool
  options : Options
deriving DecidableEq

/-- Cache.Len (src/cache.go lines 188-192). -/
def Len {T : Type} (c : CacheSt T) : Nat := c.data.length

/-- Cache.sendFlushSignalIfReachMaxLength (src/cache.go lines 215-219).
Returns `none` when no send was attempted, otherwise the send outcome. -/
def sendFlushSignalIfReachMaxLength {T : Type} (c : CacheSt T) :
    CacheSt T × Option SendRes :=
  if (c.data.length : Int) ≥ c.options.maxLength then
    let r := chanSend c.flushChannel
    ({ c with flushChannel := r.1 }, some r.2)
  else (c, none)

/-- Cache.Add (src/cache.go lines 168-173): append one row under the lock,
then post a flush signal if the threshold is reached. -/
def Add {T : Type} (row : T) (c : CacheSt T) : CacheSt T × Option SendRes :=
  sendFlushSignalIfReachMaxLength { c with data := c.data ++ [row] }

/-- Cache.AddList (src/cache.go lines 176-185): early return on an empty
batch, otherwise append the whole batch under one lock acquisition and
post a flush signal if the threshold is reached. -/
def AddList {T : Type} (rows : List T) (c : CacheSt T) : CacheSt T × Option SendRes :=
  if rows.isEmpty then (c, none)
  else sendFlushSignalIfReachMaxLength { c with data := c.data ++ rows }

/-- The `Marshal` capability of a record, as an explicit function:
`Except.error` is a non-nil serialization error. -/
def marshalOk {T : Type} (mar : T → Except Err (List Nat)) (row : T) :
    Option (List Nat) :=
  match mar row with
  | .ok body => some body
  | .error _ => none

/-- One iteration of the backup-write loop body (src/cache.go lines
307-315): a serialization failure logs and skips the row; otherwise the
body and a newline are written to the buffered writer. -/
def backupLine {T : Type} (mar : T → Except Err (List Nat)) (row : T) :
    List (Ev T) :=
  match mar row with
  | .error er => [.log (.marshalError row er)]
  | .ok body => [.write body, .writeNewline]

/-- Cache.failedCallBack (src/cache.go lines 296-319) as the trace of
actions it performs.  `gw` is the outcome of `writer.GetWriter()` (its
file-system effects are environmental). -/
def failedCallBack {T : Type} (enable : Bool) (mar : T → Except Err (List Nat))
    (gw : Except Err FileHandle) (rows : List T) : List (Ev T) :=
  if !enable || rows.isEmpty then []
  else
    match gw with
    | .error e => [.getWriter, .log (.getWriterError rows e)]
    | .ok _ => .getWriter :: (rows.map (backupLine mar)).flatten

/-- Result of one Cache.flush: the post-state, the trace of actions, and
the message of a panic propagating out of flush (after its deferred
statements, which clear the buffer, have run), if any. -/
structure FlushOut (T : Type) where
  st : CacheSt T
  trace : List (Ev T)
  panicMsg : Option String
deriving DecidableEq

/-- Cache.flush (src/cache.go lines 259-294).  The nil-handle and empty-
buffer early returns precede the deferred truncation, so those paths leave
the state untouched; on every other path the buffer is cleared by the
deferred `c.data = c.data[:0]`, including when a sink panics (Go runs
deferred statements during unwinding). -/
def flush {T : Type} (h : Option (Handle T)) (mar : T → Except Err (List Nat))
    (gw : Except Err FileHandle) (c : CacheSt T) : FlushOut T :=
  match h with
  | none => ⟨c, [], none⟩
  | some hdl =>
    if c.data.isEmpty then ⟨c, [], none⟩
    else
      let total := c.data.length
      let cleared : CacheSt T := { c with data := [] }
      let t0 : List (Ev T) := [.log .debugStart, .flushCall c.data]
      match hdl.flushCall c.data with
      | .panicked m => ⟨cleared, t0, some m⟩
      | .ret none => ⟨cleared, t0 ++ [.log (.flushCallSuccess total)], none⟩
      | .ret (some e) =>
        let t1 := t0 ++ [.log (.flushCallError total e), .failedCall c.data]
        match hdl.failedCall c.data with
        | .panicked m => ⟨cleared, t1, some m⟩
        | .ret none => ⟨cleared, t1 ++ [.log (.failedCallSuccess total)], none⟩
        | .ret (some e2) =>
          ⟨cleared, t1 ++ [.log (.failedCallError total e2)]
            ++ failedCallBack c.options.enableLocalBackup mar gw c.data, none⟩

/-- Select the argument of a primary-sink invocation event. -/
def primArg {T : Type} : Ev T → Option (List T)
  | .flushCall rows => some rows
  | _ => none

/-- The sequence of record batches handed to the primary sink in a trace. -/
def primCalls {T : Type} (l : List (Ev T)) : List (List T) :=
  l.filterMap primArg

/-- Select the argument of a secondary-sink invocation event. -/
def secArg {T : Type} : Ev T → Option (List T)
  | .failedCall rows => some rows
  | _ => none

/-- The sequence of record batches handed to the secondary sink in a trace. -/
def secCalls {T : Type} (l : List (Ev T)) : List (List T) :=
  l.filterMap secArg

/-- Select the payload of a backup file write event. -/
def writeBody {T : Type} : Ev T → Option (List Nat)
  | .write b => some b
  | _ => none

/-- The record bodies written to the backup file in a trace. -/
def writtenBodies {T : Type} (l : List (Ev T)) : List (List Nat) :=
  l.filterMap writeBody

/-- Receiving one signal from the channel (the run loop's channel case). -/
def recvOne {T : Type} (c : CacheSt T) : CacheSt T :=
  { c with flushChannel := { c.flushChannel with pending := c.flushChannel.pending - 1 } }

/-- The run loop's signal branch (src/cache.go lines 238-248): receive a
signal and, when the handle is non-nil, run flush inside the
recover-guarded closure — a panic is converted into an Errorf log and the
loop continues. -/
def signalStep {T : Type} (h : Option (Handle T)) (mar : T → Except Err (List Nat))
    (gw : Except Err FileHandle) (c : CacheSt T) : CacheSt T × List (Ev T) :=
  let c1 := recvOne c
  match h with
  | none => (c1, [])
  | some hdl =>
    let out := flush (some hdl) mar gw c1
    match out.panicMsg with
    | some m => (out.st, out.trace ++ [.log (.panicRecovered m)])
    | none => (out.st, out.trace)

/-- Result of the run loop once cancellation has been observed: the final
state, the accumulated trace, whether `wg.Done()` was reached (so that
`Stop`'s `wg.Wait()` returns), and the message of a panic escaping the run
loop, if any. -/
structure DoneOut (T : Type) where
  st : CacheSt T
  trace : List (Ev T)
  wgDone : Bool
  escaped : Option String

/-- The run loop's cancellation branch (src/cache.go lines 249-254): when
the handle is non-nil, run flush with NO recover guard, then `wg.Done()`.
A panic in this flush escapes the run loop and skips `wg.Done()`. -/
def doneStep {T : Type} (h : Option (Handle T)) (mar : T → Except Err (List Nat))
    (gw : Except Err FileHandle) (c : CacheSt T) : DoneOut T :=
  match h with
  | none => ⟨c, [], false, none⟩
  | some hdl =>
    let out := flush (some hdl) mar gw c
    match out.panicMsg with
    | some m => ⟨out.st, out.trace, false, some m⟩
    | none => ⟨out.st, out.trace, true, none⟩

/-- The run loop after cancellation has been issued.  Go's `select` picks
nondeterministically between a pending signal and the done case; `sched`
is the oracle resolving that choice (`true` = take a pending signal, when
one exists).  When the schedule is exhausted, or no signal is pending, or
the oracle says so, the done branch runs and the loop returns. -/
def runCancelled {T : Type} (h : Option (Handle T)) (mar : T → Except Err (List Nat))
    (gw : Except Err FileHandle) : List Bool → CacheSt T → DoneOut T
  | [], c => doneStep h mar gw c
  | b :: rest, c =>
    if b = true ∧ 0 < c.flushChannel.pending then
      let s := signalStep h mar gw c
      let r := runCancelled h mar gw rest s.1
      ⟨r.st, s.2 ++ r.trace, r.wgDone, r.escaped⟩
    else doneStep h mar gw c

/-- Cache.Stop (src/cache.go lines 199-213): stop the ticker (stateless
here), `wg.Add(1)`, cancel, `wg.Wait()`, then `writer.Close()` and
`close(flushChannel)`.  If the run loop never reaches `wg.Done()` (handle
nil, or a panic escaping the terminal flush), `wg.Wait()` never returns:
the writer and the channel are then never closed. -/
def StopRun {T : Type} (h : Option (Handle T)) (mar : T → Except Err (List Nat))
    (gw : Except Err FileHandle) (sched : List Bool) (c : CacheSt T) : DoneOut T :=
  let c1 : CacheSt T := { c with cancelled := true }
  let r := runCancelled h mar gw sched c1
  if r.wgDone then
    ⟨{ r.st with flushChannel := { r.st.flushChannel with closed := true } },
      r.trace ++ [.writerClose, .chanClose], true, r.escaped⟩
  else ⟨r.st, r.trace, false, r.escaped⟩

/- Concrete instances used to evaluate the definitions. -/

/-- A sink pair whose primary always succeeds. -/
def okHandle : Handle Nat :=
  ⟨fun _ => .ret none, fun _ => .ret none⟩

/-- A sink pair whose primary always fails and whose secondary succeeds. -/
def failPrimHandle : Handle Nat :=
  ⟨fun _ => .ret (some "primary down"), fun _ => .ret none⟩

/-- A sink pair where both sinks always fail. -/
def failBothHandle : Handle Nat :=
  ⟨fun _ => .ret (some "primary down"), fun _ => .ret (some "secondary down")⟩

/-- A sink pair whose primary raises a run-time fault. -/
def panicHandle : Handle Nat :=
  ⟨fun _ => .panicked "boom", fun _ => .ret none⟩

/-- A marshaller that fails on the record 5 and serializes any other
record n to the single byte n. -/
def natMarshal : Nat → Except Err (List Nat) :=
  fun n => if n = 5 then .error "cannot marshal 5" else .ok [n]

/-- A successfully obtained backup file handle. -/
def gwOk : Except Err FileHandle := .ok ⟨false⟩

/-- A cache holding two records, channel open, not cancelled. -/
def cEx : CacheSt Nat :=
  { data := [1, 2]
  , flushChannel := { pending := 0, cap := 10, closed := false }
  , cancelled := false
  , options := defaultOptions }

/-- A cache with an empty buffer. -/
def cEmpty : CacheSt Nat :=
  { data := []
  , flushChannel := { pending := 0, cap := 10, closed := false }
  , cancelled := false
  , options := defaultOptions }

/-- A cache holding one record with no pending signals, about to be
stopped. -/
def stopCEx : CacheSt Nat :=
  { data := [7]
  , flushChannel := { pending := 0, cap := 10, closed := false }
  , cancelled := false
  , options := defaultOptions }

/-- A cache holding one record and one pending flush signal. -/
def sigCEx : CacheSt Nat :=
  { data := [7]
  , flushChannel := { pending := 1, cap := 10, closed := false }
  , cancelled := false
  , options := defaultOptions }

/-- A cache whose signal channel has been closed by Stop, with a small
capacity threshold. -/
def closedCEx : CacheSt Nat :=
  { data := [1, 2]
  , flushChannel := { pending := 0, cap := 10, closed := true }
  , cancelled := true
  , options := { defaultOptions with maxLength := 3 } }

/-- A default writer holding an open backup file handle. -/
def wOpen : WriterSt := ⟨some ⟨false⟩, "./failed.20251011.log"⟩

/- Helper lemmas. -/

theorem isEmpty_false_of_ne {T : Type} {l : List T} (h : l ≠ []) : l.isEmpty = false := by
  cases l with
  | nil => exact absurd rfl h
  | cons a t => rfl

theorem filterMap_eq_nil_of_none {α β : Type} {f : α → Option β} {l : List α}
    (h : ∀ a ∈ l, f a = none) : l.filterMap f = [] := by
  induction l with
  | nil => rfl
  | cons a t ih =>
    rw [List.filterMap_cons, h a (List.mem_cons_self a t)]
    exact ih (fun x hx => h x (List.mem_cons_of_mem a hx))

theorem sendFlushSignal_spec {T : Type} (c : CacheSt T) :
    (sendFlushSignalIfReachMaxLength c).1.data = c.data ∧
    (sendFlushSignalIfReachMaxLength c).1.options = c.options ∧
    ((sendFlushSignalIfReachMaxLength c).2 = none ↔
      (c.data.length : Int) < c.options.maxLength) := by
  unfold sendFlushSignalIfReachMaxLength
  by_cases h : (c.data.length : Int) ≥ c.options.maxLength
  · rw [if_pos h]
    refine ⟨rfl, rfl, ?_⟩
    simp only [reduceCtorEq, false_iff, not_lt]
    exact h
  · rw [if_neg h]
    refine ⟨rfl, rfl, ?_⟩
    simp only [true_iff]
    omega

theorem sendFlushSignal_closed {T : Type} (c : CacheSt T)
    (hclosed : c.flushChannel.closed = true)
    (hth : (c.data.length : Int) ≥ c.options.maxLength) :
    (sendFlushSignalIfReachMaxLength c).2 = some SendRes.panicked := by
  unfold sendFlushSignalIfReachMaxLength chanSend
  rw [if_pos hth, hclosed]
  simp

theorem flush_empty {T : Type} (h : Option (Handle T)) (mar : T → Except Err (List Nat))
    (gw : Except Err FileHandle) (c : CacheSt T) (he : c.data = []) :
    flush h mar gw c = ⟨c, [], none⟩ := by
  cases h with
  | none => rfl
  | some hdl => simp [flush, he]

theorem mem_backupLine {T : Type} {mar : T → Except Err (List Nat)} {row : T} {e : Ev T}
    (he : e ∈ backupLine mar row) :
    primArg e = none ∧ secArg e = none ∧ e ≠ Ev.writerClose ∧ e ≠ Ev.chanClose := by
  unfold backupLine at he
  cases hm : mar row with
  | error er =>
    rw [hm] at he
    simp only [List.mem_singleton] at he
    subst he
    exact ⟨rfl, rfl, by simp, by simp⟩
  | ok b =>
    rw [hm] at he
    simp only [List.mem_cons, List.mem_singleton, List.not_mem_nil, or_false] at he
    rcases he with rfl | rfl <;> exact ⟨rfl, rfl, by simp, by simp⟩

theorem mem_failedCallBack {T : Type} {en : Bool} {mar : T → Except Err (List Nat)}
    {gw : Except Err FileHandle} {rows : List T} {e : Ev T}
    (he : e ∈ failedCallBack en mar gw rows) :
    primArg e = none ∧ secArg e = none ∧ e ≠ Ev.writerClose ∧ e ≠ Ev.chanClose := by
  unfold failedCallBack at he
  split at he
  · cases he
  · cases gw with
    | error er =>
      simp only [List.mem_cons, List.mem_singleton, List.not_mem_nil, or_false] at he
      rcases he with rfl | rfl <;> exact ⟨rfl, rfl, by simp, by simp⟩
    | ok f =>
      simp only [List.mem_cons] at he
      rcases he with rfl | he
      · exact ⟨rfl, rfl, by simp, by simp⟩
      · rw [List.mem_flatten] at he
        obtain ⟨l, hl, hel⟩ := he
        rw [List.mem_map] at hl
        obtain ⟨r, _, rfl⟩ := hl
        exact mem_backupLine hel

theorem failedCallBack_primCalls {T : Type} (en : Bool) (mar : T → Except Err (List Nat))
    (gw : Except Err FileHandle) (rows : List T) :
    primCalls (failedCallBack en mar gw rows) = [] :=
  filterMap_eq_nil_of_none (fun _ ha => (mem_failedCallBack ha).1)

theorem failedCallBack_secCalls {T : Type} (en : Bool) (mar : T → Except Err (List Nat))
    (gw : Except Err FileHandle) (rows : List T) :
    secCalls (failedCallBack en mar gw rows) = [] :=
  filterMap_eq_nil_of_none (fun _ ha => (mem_failedCallBack ha).2.1)

theorem failedCallBack_no_close {T : Type} (en : Bool) (mar : T → Except Err (List Nat))
    (gw : Except Err FileHandle) (rows : List T) :
    Ev.writerClose ∉ failedCallBack en mar gw rows ∧
    Ev.chanClose ∉ failedCallBack en mar gw rows :=
  ⟨fun h => (mem_failedCallBack h).2.2.1 rfl, fun h => (mem_failedCallBack h).2.2.2 rfl⟩

theorem flush_some_nonempty {T : Type} (hdl : Handle T) (mar : T → Except Err (List Nat))
    (gw : Except Err FileHandle) (c : CacheSt T) (hie : c.data.isEmpty = false) :
    (flush (some hdl) mar gw c).st = { c with data := [] } ∧
    primCalls (flush (some hdl) mar gw c).trace = [c.data] ∧
    Ev.writerClose ∉ (flush (some hdl) mar gw c).trace ∧
    Ev.chanClose ∉ (flush (some hdl) mar gw c).trace := by
  cases hfc : hdl.flushCall c.data with
  | panicked m =>
    simp [flush, hie, hfc, primCalls, primArg]
  | ret e =>
    cases e with
    | none =>
      simp [flush, hie, hfc, primCalls, primArg]
    | some er =>
      cases hsc : hdl.failedCall c.data with
      | panicked m =>
        simp [flush, hie, hfc, hsc, primCalls, primArg, secArg]
      | ret e2 =>
        cases e2 with
        | none =>
          simp [flush, hie, hfc, hsc, primCalls, primArg, secArg]
        | some er2 =>
          refine ⟨by simp [flush, hie, hfc, hsc], ?_, ?_, ?_⟩
          · simp only [flush, hie, Bool.false_eq_true, if_false, hfc, hsc, primCalls, primArg,
              List.filterMap_append, List.filterMap_cons, List.filterMap_nil]
            simp only [List.append_nil, List.nil_append, List.cons_append]
            rw [filterMap_eq_nil_of_none (fun a ha => (mem_failedCallBack ha).1)]
          · simp only [flush, hie, Bool.false_eq_true, if_false, hfc, hsc]
            simp [List.mem_append,
              (failedCallBack_no_close c.options.enableLocalBackup mar gw c.data).1]
          · simp only [flush, hie, Bool.false_eq_true, if_false, hfc, hsc]
            simp [List.mem_append,
              (failedCallBack_no_close c.options.enableLocalBackup mar gw c.data).2]

theorem flush_noPanic {T : Type} (hdl : Handle T) (mar : T → Except Err (List Nat))
    (gw : Except Err FileHandle) (c : CacheSt T)
    (h1 : ∀ rows, (hdl.flushCall rows).isRet = true)
    (h2 : ∀ rows, (hdl.failedCall rows).isRet = true) :
    (flush (some hdl) mar gw c).panicMsg = none := by
  by_cases hie : c.data.isEmpty
  · simp [flush, hie]
  · cases hfc : hdl.flushCall c.data with
    | panicked m =>
      have := h1 c.data
      rw [hfc] at this
      exact absurd this (by simp [SinkRes.isRet])
    | ret e =>
      cases e with
      | none => simp [flush, hie, hfc]
      | some er =>
        cases hsc : hdl.failedCall c.data with
        | panicked m =>
          have := h2 c.data
          rw [hsc] at this
          exact absurd this (by simp [SinkRes.isRet])
        | ret e2 => cases e2 <;> simp [flush, hie, hfc, hsc]

theorem flush_panic_clears {T : Type} (hdl : Handle T) (mar : T → Except Err (List Nat))
    (gw : Except Err FileHandle) (c : CacheSt T) (m : String)
    (hp : (flush (some hdl) mar gw c).panicMsg = some m) :
    (flush (some hdl) mar gw c).st.data = [] := by
  by_cases hie : c.data.isEmpty
  · rw [flush_empty (some hdl) mar gw c (List.isEmpty_iff.mp hie)] at hp
    cases hp
  · rw [(flush_some_nonempty hdl mar gw c (by simpa using hie)).1]

theorem recvOne_data {T : Type} (c : CacheSt T) : (recvOne c).data = c.data := rfl

theorem signalStep_empty {T : Type} (hdl : Handle T) (mar : T → Except Err (List Nat))
    (gw : Except Err FileHandle) (c : CacheSt T) (he : c.data = []) :
    signalStep (some hdl) mar gw c = (recvOne c, []) := by
  simp only [signalStep]
  rw [flush_empty (some hdl) mar gw (recvOne c) he]

theorem signalStep_noPanic {T : Type} (hdl : Handle T) (mar : T → Except Err (List Nat))
    (gw : Except Err FileHandle) (c : CacheSt T)
    (h1 : ∀ rows, (hdl.flushCall rows).isRet = true)
    (h2 : ∀ rows, (hdl.failedCall rows).isRet = true) :
    (signalStep (some hdl) mar gw c).1.data = [] ∧
    primCalls (signalStep (some hdl) mar gw c).2
      = (if c.data.isEmpty then [] else [c.data]) ∧
    Ev.writerClose ∉ (signalStep (some hdl) mar gw c).2 ∧
    Ev.chanClose ∉ (signalStep (some hdl) mar gw c).2 := by
  by_cases hie : c.data.isEmpty
  · rw [signalStep_empty hdl mar gw c (List.isEmpty_iff.mp hie)]
    simp [hie, recvOne_data, List.isEmpty_iff.mp hie, primCalls]
  · have hs : signalStep (some hdl) mar gw c
        = ((flush (some hdl) mar gw (recvOne c)).st,
           (flush (some hdl) mar gw (recvOne c)).trace) := by
      simp only [signalStep]
      rw [flush_noPanic hdl mar gw (recvOne c) h1 h2]
    obtain ⟨hst, hprim, hw, hc⟩ :=
      flush_some_nonempty hdl mar gw (recvOne c) (by simpa [recvOne_data] using hie)
    rw [hs]
    refine ⟨by rw [hst], ?_, hw, hc⟩
    rw [hprim, recvOne_data, if_neg (by simpa using hie)]

theorem doneStep_noPanic {T : Type} (hdl : Handle T) (mar : T → Except Err (List Nat))
    (gw : Except Err FileHandle) (c : CacheSt T)
    (h1 : ∀ rows, (hdl.flushCall rows).isRet = true)
    (h2 : ∀ rows, (hdl.failedCall rows).isRet = true) :
    doneStep (some hdl) mar gw c
      = ⟨(flush (some hdl) mar gw c).st, (flush (some hdl) mar gw c).trace, true, none⟩ := by
  simp only [doneStep]
  rw [flush_noPanic hdl mar gw c h1 h2]

theorem runCancelled_empty_data {T : Type} (hdl : Handle T) (mar : T → Except Err (List Nat))
    (gw : Except Err FileHandle) (sched : List Bool) (c : CacheSt T) (he : c.data = []) :
    (runCancelled (some hdl) mar gw sched c).trace = [] ∧
    (runCancelled (some hdl) mar gw sched c).wgDone = true ∧
    (runCancelled (some hdl) mar gw sched c).escaped = none ∧
    (runCancelled (some hdl) mar gw sched c).st.data = [] := by
  induction sched generalizing c with
  | nil =>
    simp only [runCancelled, doneStep]
    rw [flush_empty (some hdl) mar gw c he]
    exact ⟨rfl, rfl, rfl, he⟩
  | cons b rest ih =>
    by_cases hg : b = true ∧ 0 < c.flushChannel.pending
    · simp only [runCancelled]
      rw [if_pos hg, signalStep_empty hdl mar gw c he]
      obtain ⟨ht, hw, hes, hd⟩ := ih (recvOne c) he
      exact ⟨by simp [ht], hw, hes, hd⟩
    · simp only [runCancelled]
      rw [if_neg hg]
      simp only [doneStep]
      rw [flush_empty (some hdl) mar gw c he]
      exact ⟨rfl, rfl, rfl, he⟩

theorem runCancelled_total {T : Type} (hdl : Handle T) (mar : T → Except Err (List Nat))
    (gw : Except Err FileHandle) (sched : List Bool) (c : CacheSt T)
    (h1 : ∀ rows, (hdl.flushCall rows).isRet = true)
    (h2 : ∀ rows, (hdl.failedCall rows).isRet = true) :
    (runCancelled (some hdl) mar gw sched c).wgDone = true ∧
    (runCancelled (some hdl) mar gw sched c).escaped = none ∧
    (runCancelled (some hdl) mar gw sched c).st.data = [] ∧
    Ev.writerClose ∉ (runCancelled (some hdl) mar gw sched c).trace ∧
    Ev.chanClose ∉ (runCancelled (some hdl) mar gw sched c).trace ∧
    primCalls (runCancelled (some hdl) mar gw sched c).trace
      = (if c.data.isEmpty then [] else [c.data]) := by
  cases sched with
  | nil =>
    simp only [runCancelled]
    rw [doneStep_noPanic hdl mar gw c h1 h2]
    by_cases hie : c.data.isEmpty
    · rw [flush_empty (some hdl) mar gw c (List.isEmpty_iff.mp hie)]
      simp [hie, List.isEmpty_iff.mp hie, primCalls]
    · obtain ⟨hst, hprim, hw, hc⟩ :=
        flush_some_nonempty hdl mar gw c (by simpa using hie)
      exact ⟨rfl, rfl, by rw [hst], hw, hc, by rw [hprim, if_neg hie]⟩
  | cons b rest =>
    by_cases hg : b = true ∧ 0 < c.flushChannel.pending
    · simp only [runCancelled]
      rw [if_pos hg]
      obtain ⟨hsd, hsp, hsw, hsc⟩ := signalStep_noPanic hdl mar gw c h1 h2
      obtain ⟨hrt, hrw, hres, hrd⟩ :=
        runCancelled_empty_data hdl mar gw rest (signalStep (some hdl) mar gw c).1 hsd
      refine ⟨hrw, hres, hrd, ?_, ?_, ?_⟩
      · rw [List.mem_append]
        rintro (h | h)
        · exact hsw h
        · rw [hrt] at h
          cases h
      · rw [List.mem_append]
        rintro (h | h)
        · exact hsc h
        · rw [hrt] at h
          cases h
      · simp only [primCalls, List.filterMap_append]
        rw [hrt]
        simp only [List.filterMap_nil, List.append_nil]
        exact hsp
    · simp only [runCancelled]
      rw [if_neg hg, doneStep_noPanic hdl mar gw c h1 h2]
      by_cases hie : c.data.isEmpty
      · rw [flush_empty (some hdl) mar gw c (List.isEmpty_iff.mp hie)]
        simp [hie, List.isEmpty_iff.mp hie, primCalls]
      · obtain ⟨hst, hprim, hw, hc⟩ :=
          flush_some_nonempty hdl mar gw c (by simpa using hie)
        exact ⟨rfl, rfl, by rw [hst], hw, hc, by rw [hprim, if_neg hie]⟩

theorem writtenBodies_flatten {T : Type} (mar : T → Except Err (List Nat)) (rows : List T) :
    writtenBodies ((rows.map (backupLine mar)).flatten) = rows.filterMap (marshalOk mar) := by
  induction rows with
  | nil => rfl
  | cons r rest ih =>
    simp only [List.map_cons, List.flatten_cons, writtenBodies, List.filterMap_append,
      List.filterMap_cons]
    cases hm : mar r with
    | error er =>
      simp only [backupLine, hm, marshalOk, List.filterMap_cons, writeBody,
        List.filterMap_nil, List.nil_append]
      exact ih
    | ok b =>
      simp only [backupLine, hm, marshalOk, List.filterMap_cons, writeBody,
        List.filterMap_nil, List.cons_append, List.nil_append]
      exact congrArg (List.cons b) ih

/- Claim theorems. -/

/-- C1: for every flush of a non-empty buffer the primary sink is invoked
first, with the whole drained snapshot; when the primary returns nil,
neither the secondary sink nor the backup writer is invoked; when the
primary errors and the secondary returns nil, the backup writer is not
invoked and the secondary received exactly the record sequence the primary
received. -/
theorem flush_fallback_order {T : Type} (hdl : Handle T) (mar : T → Except Err (List Nat))
    (gw : Except Err FileHandle) (c : CacheSt T) (hne : c.data ≠ []) :
    primCalls (flush (some hdl) mar gw c).trace = [c.data] ∧
    (∃ rest, (flush (some hdl) mar gw c).trace
        = Ev.log LogEvent.debugStart :: Ev.flushCall c.data :: rest) ∧
    (hdl.flushCall c.data = SinkRes.ret none →
      secCalls (flush (some hdl) mar gw c).trace = [] ∧
      Ev.getWriter ∉ (flush (some hdl) mar gw c).trace) ∧
    (∀ e, hdl.flushCall c.data = SinkRes.ret (some e) →
      hdl.failedCall c.data = SinkRes.ret none →
      Ev.getWriter ∉ (flush (some hdl) mar gw c).trace ∧
      secCalls (flush (some hdl) mar gw c).trace = [c.data]) := by
  have hie : c.data.isEmpty = false := isEmpty_false_of_ne hne
  refine ⟨(flush_some_nonempty hdl mar gw c hie).2.1, ?_, ?_, ?_⟩
  · cases hfc : hdl.flushCall c.data with
    | panicked m => exact ⟨[], by simp [flush, hie, hfc]⟩
    | ret e =>
      cases e with
      | none =>
        exact ⟨[Ev.log (LogEvent.flushCallSuccess c.data.length)],
          by simp [flush, hie, hfc]⟩
      | some er =>
        cases hsc : hdl.failedCall c.data with
        | panicked m =>
          exact ⟨[Ev.log (LogEvent.flushCallError c.data.length er), Ev.failedCall c.data],
            by simp [flush, hie, hfc, hsc]⟩
        | ret e2 =>
          cases e2 with
          | none =>
            exact ⟨[Ev.log (LogEvent.flushCallError c.data.length er), Ev.failedCall c.data,
              Ev.log (LogEvent.failedCallSuccess c.data.length)],
              by simp [flush, hie, hfc, hsc]⟩
          | some er2 =>
            exact ⟨Ev.log (LogEvent.flushCallError c.data.length er) :: Ev.failedCall c.data ::
              Ev.log (LogEvent.failedCallError c.data.length er2) ::
              failedCallBack c.options.enableLocalBackup mar gw c.data,
              by simp [flush, hie, hfc, hsc]⟩
  · intro hfc
    constructor
    · simp [flush, hie, hfc, secCalls, secArg]
    · simp [flush, hie, hfc]
  · intro e hfc hsc
    constructor
    · simp [flush, hie, hfc, hsc]
    · simp [flush, hie, hfc, hsc, secCalls, secArg]

/-- C1 witness: with a primary that always fails and a secondary that
succeeds, on the concrete buffer [1, 2] the backup writer is not invoked
and the secondary receives [1, 2]. -/
theorem flush_fallback_order_witness :
    cEx.data ≠ [] ∧
    (Ev.getWriter ∉ (flush (some failPrimHandle) natMarshal gwOk cEx).trace ∧
     secCalls (flush (some failPrimHandle) natMarshal gwOk cEx).trace = [cEx.data]) :=
  ⟨by decide,
   (flush_fallback_order failPrimHandle natMarshal gwOk cEx
      (by decide)).2.2.2 "primary down" rfl rfl⟩

/-- C2: once a flush begins on a non-empty buffer, the buffer ends empty
whatever the sinks and the backup write do, and a subsequent Len with no
intervening Add returns 0. -/
theorem flush_clears_buffer {T : Type} (hdl : Handle T) (mar : T → Except Err (List Nat))
    (gw : Except Err FileHandle) (c : CacheSt T) (hne : c.data ≠ []) :
    (flush (some hdl) mar gw c).st.data = [] ∧
    Len (flush (some hdl) mar gw c).st = 0 := by
  have h := (flush_some_nonempty hdl mar gw c (isEmpty_false_of_ne hne)).1
  rw [h]
  exact ⟨rfl, rfl⟩

/-- C2 witness: at the concrete buffer [1, 2] with both sinks failing,
the buffer is cleared and Len returns 0. -/
theorem flush_clears_buffer_witness :
    cEx.data ≠ [] ∧
    ((flush (some failBothHandle) natMarshal gwOk cEx).st.data = [] ∧
     Len (flush (some failBothHandle) natMarshal gwOk cEx).st = 0) :=
  ⟨by decide, flush_clears_buffer failBothHandle natMarshal gwOk cEx (by decide)⟩

/-- C7: a flush invoked on an empty buffer is a complete no-op: the state
is unchanged and the trace is empty, so no sink is invoked, no backup
handle is requested, and no log call is made. -/
theorem flush_empty_noop {T : Type} (h : Option (Handle T)) (mar : T → Except Err (List Nat))
    (gw : Except Err FileHandle) (c : CacheSt T) (he : c.data = []) :
    flush h mar gw c = ⟨c, [], none⟩ :=
  flush_empty h mar gw c he

/-- C7 witness: flushing the concrete empty cache changes nothing and
produces no events. -/
theorem flush_empty_noop_witness :
    cEmpty.data = [] ∧ flush (some okHandle) natMarshal gwOk cEmpty = ⟨cEmpty, [], none⟩ :=
  ⟨rfl, flush_empty_noop (some okHandle) natMarshal gwOk cEmpty rfl⟩

/-- C8: AddList appends the whole batch in one transition (one lock
acquisition in the source), and on an empty input it is a complete no-op —
state unchanged and no flush signal posted, whatever the buffer length;
for a non-empty batch a signal is posted exactly when the new length
reaches the threshold. -/
theorem addList_batch_and_empty_noop {T : Type} (c : CacheSt T) (rows : List T) :
    AddList ([] : List T) c = (c, none) ∧
    (rows ≠ [] →
      (AddList rows c).1.data = c.data ++ rows ∧
      (AddList rows c).1.options = c.options ∧
      ((AddList rows c).2 = none ↔
        ((c.data.length : Int) + (rows.length : Int) < c.options.maxLength))) := by
  constructor
  · rfl
  · intro hne
    have hie : rows.isEmpty = false := isEmpty_false_of_ne hne
    have h1 : AddList rows c
        = sendFlushSignalIfReachMaxLength { c with data := c.data ++ rows } := by
      simp [AddList, hie]
    rw [h1]
    obtain ⟨hd, ho, hiff⟩ := sendFlushSignal_spec { c with data := c.data ++ rows }
    refine ⟨hd, ho, ?_⟩
    rw [hiff]
    simp only [List.length_append]
    constructor <;> intro h <;> omega

/-- C8 witness: on the concrete cache, AddList with an empty batch is the
identity and posts nothing, and AddList [3] appends 3 and posts no signal
because 3 < 1000. -/
theorem addList_batch_and_empty_noop_witness :
    AddList ([] : List Nat) cEx = (cEx, none) ∧
    ((AddList [3] cEx).1.data = cEx.data ++ [3] ∧
     (AddList [3] cEx).1.options = cEx.options ∧
     ((AddList [3] cEx).2 = none ↔
       ((cEx.data.length : Int) + (([3] : List Nat).length : Int) < cEx.options.maxLength))) :=
  ⟨(addList_batch_and_empty_noop cEx [3]).1,
   (addList_batch_and_empty_noop cEx [3]).2 (by decide)⟩

/-- C9: during a backup write with an obtained file handle, a record whose
Marshal fails is logged and skipped, and exactly the records that marshal
successfully are written, in order — the batch is not aborted. -/
theorem failedCallBack_skips_bad {T : Type} (mar : T → Except Err (List Nat))
    (f : FileHandle) (rows : List T) :
    writtenBodies (failedCallBack true mar (Except.ok f) rows)
      = rows.filterMap (marshalOk mar) ∧
    (∀ r er, r ∈ rows → mar r = Except.error er →
      Ev.log (LogEvent.marshalError r er) ∈ failedCallBack true mar (Except.ok f) rows) := by
  cases rows with
  | nil =>
    refine ⟨rfl, ?_⟩
    intro r er hr
    cases hr
  | cons a l =>
    constructor
    · have h1 : failedCallBack true mar (Except.ok f) (a :: l)
          = Ev.getWriter :: ((a :: l).map (backupLine mar)).flatten := rfl
      rw [h1]
      have h2 : writtenBodies (Ev.getWriter :: ((a :: l).map (backupLine mar)).flatten)
          = writtenBodies (((a :: l).map (backupLine mar)).flatten) := by
        simp [writtenBodies, List.filterMap_cons, writeBody]
      rw [h2, writtenBodies_flatten]
    · intro r er hr hm
      have h1 : failedCallBack true mar (Except.ok f) (a :: l)
          = Ev.getWriter :: ((a :: l).map (backupLine mar)).flatten := rfl
      rw [h1]
      refine List.mem_cons_of_mem _ ?_
      rw [List.mem_flatten]
      refine ⟨backupLine mar r, List.mem_map.mpr ⟨r, hr, rfl⟩, ?_⟩
      simp [backupLine, hm]

/-- C9 witness: marshalling fails on the record 5 only; from the batch
[4, 5, 6] the bodies of 4 and 6 are written and the failure of 5 is
logged. -/
theorem failedCallBack_skips_bad_witness :
    writtenBodies (failedCallBack true natMarshal (Except.ok ⟨false⟩) [4, 5, 6])
      = [[4], [6]] ∧
    Ev.log (LogEvent.marshalError 5 "cannot marshal 5")
      ∈ failedCallBack true natMarshal (Except.ok ⟨false⟩) [4, 5, 6] :=
  ⟨(failedCallBack_skips_bad natMarshal ⟨false⟩ [4, 5, 6]).1,
   (failedCallBack_skips_bad natMarshal ⟨false⟩ [4, 5, 6]).2 5 "cannot marshal 5"
     (by decide) rfl⟩

/-- C10: once the flush-signal channel has been closed (which Stop does
before returning), any Add or AddList that brings the buffer length to at
least the capacity threshold sends on the closed channel, a run-time
fault; neither call reports an error to the producer. -/
theorem add_after_stop_panics {T : Type} (c : CacheSt T) (row : T) (rows : List T)
    (hclosed : c.flushChannel.closed = true) :
    (((c.data.length : Int) + 1 ≥ c.options.maxLength) →
      (Add row c).2 = some SendRes.panicked) ∧
    (rows ≠ [] → ((c.data.length : Int) + (rows.length : Int) ≥ c.options.maxLength) →
      (AddList rows c).2 = some SendRes.panicked) := by
  constructor
  · intro hth
    refine sendFlushSignal_closed { c with data := c.data ++ [row] } hclosed ?_
    simp only [List.length_append, List.length_singleton]
    push_cast
    omega
  · intro hne hth
    have hie : rows.isEmpty = false := isEmpty_false_of_ne hne
    have h1 : AddList rows c
        = sendFlushSignalIfReachMaxLength { c with data := c.data ++ rows } := by
      simp [AddList, hie]
    rw [h1]
    refine sendFlushSignal_closed { c with data := c.data ++ rows } hclosed ?_
    simp only [List.length_append]
    push_cast
    omega

/-- C10 witness: on the concrete post-Stop cache (threshold 3, two
buffered records, channel closed), Add and AddList both end in the
send-on-closed-channel fault. -/
theorem add_after_stop_panics_witness :
    closedCEx.flushChannel.closed = true ∧
    (Add 7 closedCEx).2 = some SendRes.panicked ∧
    (AddList [8, 9] closedCEx).2 = some SendRes.panicked :=
  ⟨rfl,
   (add_after_stop_panics closedCEx 7 [8, 9] rfl).1 (by decide),
   (add_after_stop_panics closedCEx 7 [8, 9] rfl).2 (by decide) (by decide)⟩

/-- C3: Stop issues cancellation; the run loop then performs its terminal
flush, which hands the primary sink every record still buffered (exactly
once, if any remain); Stop waits for the loop to signal completion and
only afterwards closes the backup writer and closes the signal channel —
so no record appended before Stop is lost without an attempted flush.
Stated for sinks that return (do not panic). -/
theorem stop_terminal_flush {T : Type} (hdl : Handle T) (mar : T → Except Err (List Nat))
    (gw : Except Err FileHandle) (sched : List Bool) (c : CacheSt T)
    (h1 : ∀ rows, (hdl.flushCall rows).isRet = true)
    (h2 : ∀ rows, (hdl.failedCall rows).isRet = true) :
    (StopRun (some hdl) mar gw sched c).wgDone = true ∧
    (StopRun (some hdl) mar gw sched c).st.data = [] ∧
    (StopRun (some hdl) mar gw sched c).st.flushChannel.closed = true ∧
    ∃ t, (StopRun (some hdl) mar gw sched c).trace = t ++ [Ev.writerClose, Ev.chanClose] ∧
      Ev.writerClose ∉ t ∧ Ev.chanClose ∉ t ∧
      primCalls t = (if c.data.isEmpty then [] else [c.data]) := by
  obtain ⟨hw, hes, hd, hwc, hcc, hp⟩ :=
    runCancelled_total hdl mar gw sched { c with cancelled := true } h1 h2
  have hstop : StopRun (some hdl) mar gw sched c
      = ⟨{ (runCancelled (some hdl) mar gw sched { c with cancelled := true }).st with
            flushChannel :=
              { (runCancelled (some hdl) mar gw sched
                  { c with cancelled := true }).st.flushChannel with closed := true } },
        (runCancelled (some hdl) mar gw sched { c with cancelled := true }).trace
          ++ [Ev.writerClose, Ev.chanClose],
        true,
        (runCancelled (some hdl) mar gw sched { c with cancelled := true }).escaped⟩ := by
    simp only [StopRun]
    rw [hw]
    simp
  rw [hstop]
  exact ⟨rfl, hd, rfl,
    ⟨(runCancelled (some hdl) mar gw sched { c with cancelled := true }).trace,
     rfl, hwc, hcc, hp⟩⟩

/-- C3 witness: stopping the concrete cache holding [1, 2] with an
always-succeeding primary sink completes, empties the buffer, closes the
channel, and the trace shows one primary call with [1, 2] before the two
close events. -/
theorem stop_terminal_flush_witness :
    (StopRun (some okHandle) natMarshal gwOk [] cEx).wgDone = true ∧
    (StopRun (some okHandle) natMarshal gwOk [] cEx).st.data = [] ∧
    (StopRun (some okHandle) natMarshal gwOk [] cEx).st.flushChannel.closed = true ∧
    ∃ t, (StopRun (some okHandle) natMarshal gwOk [] cEx).trace
        = t ++ [Ev.writerClose, Ev.chanClose] ∧
      Ev.writerClose ∉ t ∧ Ev.chanClose ∉ t ∧
      primCalls t = (if cEx.data.isEmpty then [] else [cEx.data]) :=
  stop_terminal_flush okHandle natMarshal gwOk [] cEx (fun _ => rfl) (fun _ => rfl)

/-- C4: evidence of the divergence between WithFailedFileDirAndMode and
its specification — with a non-empty directory and a non-empty filename,
backup is enabled, but the filename prefix is set to the constant
default "failed" (src/cache.go line 162 assigns defaultFailedFileName,
not filename), so the later backup file is named failed.YYYYMMDD.log and
the supplied prefix never appears. -/
theorem withFailedFileDirAndMode_ignores_filename :
    (WithFailedFileDirAndMode "backup" "myprefix" 0o755 defaultOptions).enableLocalBackup
      = true ∧
    (WithFailedFileDirAndMode "backup" "myprefix" 0o755 defaultOptions).failedFileName
      = "failed" ∧
    (WithFailedFileDirAndMode "backup" "myprefix" 0o755 defaultOptions).failedFileName
      ≠ "myprefix" ∧
    getWriterFileName (WithFailedFileDirAndMode "backup" "myprefix" 0o755 defaultOptions)
      "20251011" = "backup/failed.20251011.log" := by
  decide

/-- C5 counterexample: a sink panic during the terminal flush performed on
cancellation is NOT caught — it escapes the run loop, the completion
signal is skipped (so Stop never returns), and no recovered-panic log is
emitted. -/
theorem terminal_flush_panic_escapes :
    (StopRun (some panicHandle) natMarshal gwOk [] stopCEx).escaped = some "boom" ∧
    (StopRun (some panicHandle) natMarshal gwOk [] stopCEx).wgDone = false ∧
    Ev.log (LogEvent.panicRecovered "boom")
      ∉ (StopRun (some panicHandle) natMarshal gwOk [] stopCEx).trace := by
  decide

/-- C5 (amended): a sink panic during a signal-triggered flush is caught
at the run-loop boundary, logged via the error log method, does not
propagate, and the loop continues — because that flush also drained the
buffer, the loop still reaches a clean terminal flush and shutdown
completes.  The terminal flush on cancellation has no such guard (see the
counterexample). -/
theorem signal_flush_panic_caught {T : Type} (hdl : Handle T)
    (mar : T → Except Err (List Nat)) (gw : Except Err FileHandle) (c : CacheSt T)
    (m : String) (hpend : 0 < c.flushChannel.pending)
    (hp : (flush (some hdl) mar gw (recvOne c)).panicMsg = some m) :
    Ev.log (LogEvent.panicRecovered m) ∈ (signalStep (some hdl) mar gw c).2 ∧
    ∀ rest, (runCancelled (some hdl) mar gw (true :: rest) c).escaped = none ∧
      (runCancelled (some hdl) mar gw (true :: rest) c).wgDone = true := by
  have hs : signalStep (some hdl) mar gw c
      = ((flush (some hdl) mar gw (recvOne c)).st,
         (flush (some hdl) mar gw (recvOne c)).trace
           ++ [Ev.log (LogEvent.panicRecovered m)]) := by
    simp only [signalStep]
    rw [hp]
  constructor
  · rw [hs]
    simp
  · intro rest
    have hrun : runCancelled (some hdl) mar gw (true :: rest) c
        = ⟨(runCancelled (some hdl) mar gw rest (signalStep (some hdl) mar gw c).1).st,
          (signalStep (some hdl) mar gw c).2
            ++ (runCancelled (some hdl) mar gw rest (signalStep (some hdl) mar gw c).1).trace,
          (runCancelled (some hdl) mar gw rest (signalStep (some hdl) mar gw c).1).wgDone,
          (runCancelled (some hdl) mar gw rest
            (signalStep (some hdl) mar gw c).1).escaped⟩ := by
      simp only [runCancelled]
      rw [if_pos ⟨trivial, hpend⟩]
    have hdata : (signalStep (some hdl) mar gw c).1.data = [] := by
      rw [hs]
      exact flush_panic_clears hdl mar gw (recvOne c) m hp
    obtain ⟨_, hwg, hes, _⟩ :=
      runCancelled_empty_data hdl mar gw rest (signalStep (some hdl) mar gw c).1 hdata
    rw [hrun]
    exact ⟨hes, hwg⟩

/-- C5 amended witness: on the concrete cache with one pending signal and
buffer [7], whose primary sink panics with "boom", the signal branch logs
the recovered panic and the loop still shuts down cleanly. -/
theorem signal_flush_panic_caught_witness :
    Ev.log (LogEvent.panicRecovered "boom")
      ∈ (signalStep (some panicHandle) natMarshal gwOk sigCEx).2 ∧
    ((runCancelled (some panicHandle) natMarshal gwOk [true] sigCEx).escaped = none ∧
     (runCancelled (some panicHandle) natMarshal gwOk [true] sigCEx).wgDone = true) :=
  ⟨(signal_flush_panic_caught panicHandle natMarshal gwOk sigCEx "boom"
      (by decide) (by decide)).1,
   (signal_flush_panic_caught panicHandle natMarshal gwOk sigCEx "boom"
      (by decide) (by decide)).2 []⟩

/-- C6 counterexample: with an open handle, the first Close returns nil
but a second Close calls the file's close again and returns a non-nil
error — Close is not no-error under repetition. -/
theorem defaultWriterClose_second_call_errors :
    (defaultWriterClose wOpen).1 = none ∧
    (defaultWriterClose (defaultWriterClose wOpen).2).1 ≠ none := by
  decide

/-- C6 (amended): Close with no handle open returns nil and changes
nothing, any number of times; with an open handle, Close closes it and
returns nil, but does not clear the handle reference, so a further Close
re-invokes close on the already-closed handle and returns its error. -/
theorem defaultWriterClose_behavior (w : WriterSt) :
    (w.curFile = none → defaultWriterClose w = (none, w)) ∧
    (∀ f, w.curFile = some f → f.closed = false →
      (defaultWriterClose w).1 = none ∧
      (defaultWriterClose w).2.curFile = some ⟨true⟩ ∧
      (defaultWriterClose (defaultWriterClose w).2).1 = some "use of closed file") := by
  constructor
  · intro h
    simp [defaultWriterClose, h]
  · rintro ⟨fc⟩ hf hclosed
    cases hclosed
    simp [defaultWriterClose, hf, fileClose]

/-- C6 amended witness: evaluated on a writer with no handle and on the
concrete writer holding an open handle. -/
theorem defaultWriterClose_behavior_witness :
    defaultWriterClose ⟨none, ""⟩ = (none, (⟨none, ""⟩ : WriterSt)) ∧
    ((defaultWriterClose wOpen).1 = none ∧
     (defaultWriterClose wOpen).2.curFile = some ⟨true⟩ ∧
     (defaultWriterClose (defaultWriterClose wOpen).2).1 = some "use of closed file") :=
  ⟨(defaultWriterClose_behavior ⟨none, ""⟩).1 rfl,
   (defaultWriterClose_behavior wOpen).2 ⟨false⟩ rfl rfl⟩

end Midstore
